import Mathlib

/-!
Verification of the annotate-studio stroke store, hit-testing geometry and
page-prefetch queue.

The definitions below are a shallow embedding of the TypeScript source:

* `CanvasState` and its operations embed the zustand `useCanvasStore`
  (strokes, selection, clipboard, undo/redo stacks).  JS arrays become
  `List`, `string | null` becomes `Option String`, numeric coordinates
  become `ℚ` (exact arithmetic standing in for IEEE doubles) and the
  nondeterministic id/timestamp generation (`Date.now()`,
  `Math.random()`) is passed in explicitly as generator arguments.
* `getStrokeBounds`, `findStrokeAtPoint` (its non-wasm fallback path) and
  `findStrokesInRect` embed the Viewer's geometry helpers.
* `buildPrefetchQueue` embeds the queue-rebuild part of the Viewer's PDF
  prefetch effect.
-/

namespace AnnotateStudio

/-- `Point` — `{x, y}` in document coordinates. -/
structure Point where
  x : ℚ
  y : ℚ
deriving Repr, DecidableEq

/-- `Stroke` — the persisted annotation unit (store.ts `interface Stroke`). -/
structure Stroke where
  id : String
  points : List Point
  color : String
  thickness : ℚ
  opacity : ℚ
  tool : String
  pageId : Int
  timestamp : Int
  fillColor : Option String := none
  backgroundColor : Option String := none
deriving Repr, DecidableEq

/-- The mutable state of `useCanvasStore`. -/
structure CanvasState where
  strokes : List Stroke
  undoStack : List (List Stroke)
  redoStack : List (List Stroke)
  currentPageId : Int
  selectedStrokeId : Option String
  selectedStrokeIds : List String
  clipboard : List Stroke
deriving Repr, DecidableEq

/-- The store's initial state. -/
def initialCanvasState : CanvasState :=
  { strokes := [], undoStack := [], redoStack := [], currentPageId := 1,
    selectedStrokeId := none, selectedStrokeIds := [], clipboard := [] }

/-- `Omit<Stroke, "id" | "timestamp">` — the argument of `addStroke`. -/
structure StrokeData where
  points : List Point
  color : String
  thickness : ℚ
  opacity : ℚ
  tool : String
  pageId : Int
  fillColor : Option String := none
  backgroundColor : Option String := none
deriving Repr, DecidableEq

/-- The id template `` `stroke-${Date.now()}-${Math.random()...}` ``; the
nondeterministic part is the `suffix` argument. -/
def mkStrokeId (suffix : String) : String := "stroke-" ++ suffix

/-- `addStroke(strokeData)`: appends the new stroke, pushes the pre-mutation
strokes onto `undoStack`, clears `redoStack`.  `suffix`/`now` stand for the
generated id suffix and `Date.now()`. -/
def addStroke (sd : StrokeData) (suffix : String) (now : Int)
    (st : CanvasState) : CanvasState :=
  let newStroke : Stroke :=
    { id := mkStrokeId suffix, points := sd.points, color := sd.color,
      thickness := sd.thickness, opacity := sd.opacity, tool := sd.tool,
      pageId := sd.pageId, timestamp := now, fillColor := sd.fillColor,
      backgroundColor := sd.backgroundColor }
  { st with strokes := st.strokes ++ [newStroke],
            undoStack := st.undoStack ++ [st.strokes],
            redoStack := [] }

/-- `Partial<Pick<Stroke, "points" | "thickness" | "color" | "fillColor" |
"backgroundColor">>` — `none` means the key is absent from the update object.
For the two optional stroke fields the inner `Option` is the field's value
(`none` = `undefined`). -/
structure StrokeUpdate where
  points : Option (List Point) := none
  thickness : Option ℚ := none
  color : Option String := none
  fillColor : Option (Option String) := none
  backgroundColor : Option (Option String) := none
deriving Repr, DecidableEq

/-- The object spread `{ ...s, ...updates }`. -/
def applyUpdate (u : StrokeUpdate) (s : Stroke) : Stroke :=
  { s with
    points := u.points.getD s.points,
    thickness := u.thickness.getD s.thickness,
    color := u.color.getD s.color,
    fillColor := match u.fillColor with | none => s.fillColor | some v => v,
    backgroundColor :=
      match u.backgroundColor with | none => s.backgroundColor | some v => v }

/-- `updateStroke(id, updates)`: merges `updates` into the stroke whose id
matches; pushes a history entry and clears `redoStack` unconditionally. -/
def updateStroke (id : String) (u : StrokeUpdate) (st : CanvasState) :
    CanvasState :=
  { st with
    strokes := st.strokes.map (fun s => if s.id = id then applyUpdate u s else s),
    undoStack := st.undoStack ++ [st.strokes],
    redoStack := [] }

/-- `deleteStroke(id)`: filters the stroke out, pushes a history entry,
clears `redoStack`, and removes the id from the selection. -/
def deleteStroke (id : String) (st : CanvasState) : CanvasState :=
  { st with
    strokes := st.strokes.filter (fun s => s.id != id),
    undoStack := st.undoStack ++ [st.strokes],
    redoStack := [],
    selectedStrokeId :=
      if st.selectedStrokeId = some id then none else st.selectedStrokeId,
    selectedStrokeIds := st.selectedStrokeIds.filter (fun sid => sid != id) }

/-- `deleteSelectedStrokes()`: early-returns when the selection is empty,
otherwise removes every selected stroke, pushes a history entry, clears
`redoStack` and empties the selection. -/
def deleteSelectedStrokes (st : CanvasState) : CanvasState :=
  if st.selectedStrokeIds.isEmpty then st
  else
    { st with
      strokes := st.strokes.filter (fun s => !(st.selectedStrokeIds.contains s.id)),
      undoStack := st.undoStack ++ [st.strokes],
      redoStack := [],
      selectedStrokeId := none,
      selectedStrokeIds := [] }

/-- `selectStroke(id | null)`.  In `id ? [id] : []` the empty string is
falsy, so it is modelled explicitly. -/
def selectStroke (id : Option String) (st : CanvasState) : CanvasState :=
  { st with
    selectedStrokeId := id,
    selectedStrokeIds :=
      match id with
      | some s => if s = "" then [] else [s]
      | none => [] }

/-- `selectStrokes(ids)`: primary is `ids[0]` when non-empty, else `null`. -/
def selectStrokes (ids : List String) (st : CanvasState) : CanvasState :=
  { st with selectedStrokeId := ids.head?, selectedStrokeIds := ids }

/-- `addToSelection(id)`: no-op if already selected, otherwise appends the id
and makes it the primary. -/
def addToSelection (id : String) (st : CanvasState) : CanvasState :=
  if st.selectedStrokeIds.contains id then st
  else
    { st with
      selectedStrokeIds := st.selectedStrokeIds ++ [id],
      selectedStrokeId := some id }

/-- `removeFromSelection(id)`. -/
def removeFromSelection (id : String) (st : CanvasState) : CanvasState :=
  let newIds := st.selectedStrokeIds.filter (fun sid => sid != id)
  { st with selectedStrokeIds := newIds, selectedStrokeId := newIds.head? }

/-- `clearSelection()`. -/
def clearSelection (st : CanvasState) : CanvasState :=
  { st with selectedStrokeId := none, selectedStrokeIds := [] }

/-- `getStrokeById(id)`. -/
def getStrokeById (id : String) (st : CanvasState) : Option Stroke :=
  st.strokes.find? (fun s => s.id == id)

/-- `undo()`: returns `false` on an empty `undoStack`; otherwise restores the
top snapshot, pops it, and pushes the current strokes onto `redoStack`. -/
def undo (st : CanvasState) : Bool × CanvasState :=
  if h : st.undoStack = [] then (false, st)
  else
    (true,
      { st with
        strokes := st.undoStack.getLast h,
        undoStack := st.undoStack.dropLast,
        redoStack := st.redoStack ++ [st.strokes] })

/-- `redo()`: symmetric to `undo`. -/
def redo (st : CanvasState) : Bool × CanvasState :=
  if h : st.redoStack = [] then (false, st)
  else
    (true,
      { st with
        strokes := st.redoStack.getLast h,
        redoStack := st.redoStack.dropLast,
        undoStack := st.undoStack ++ [st.strokes] })

/-- `canUndo()`. -/
def canUndo (st : CanvasState) : Bool := decide (st.undoStack.length > 0)

/-- `canRedo()`. -/
def canRedo (st : CanvasState) : Bool := decide (st.redoStack.length > 0)

/-- `getPageStrokes(pageId)` (on a strokes list). -/
def getPageStrokes (pid : Int) (strokes : List Stroke) : List Stroke :=
  strokes.filter (fun s => s.pageId == pid)

/-- `clearPage(pageId)`. -/
def clearPage (pid : Int) (st : CanvasState) : CanvasState :=
  { st with
    strokes := st.strokes.filter (fun s => s.pageId != pid),
    undoStack := st.undoStack ++ [st.strokes],
    redoStack := [] }

/-- `setCurrentPage(pageId)`. -/
def setCurrentPage (pid : Int) (st : CanvasState) : CanvasState :=
  { st with currentPageId := pid }

/-- `copySelected()`. -/
def copySelected (st : CanvasState) : CanvasState :=
  if st.selectedStrokeIds.isEmpty then st
  else
    { st with
      clipboard := st.strokes.filter (fun s => st.selectedStrokeIds.contains s.id) }

/-- `cutSelected()`. -/
def cutSelected (st : CanvasState) : CanvasState :=
  if st.selectedStrokeIds.isEmpty then st
  else
    { st with
      clipboard := st.strokes.filter (fun s => st.selectedStrokeIds.contains s.id),
      strokes := st.strokes.filter (fun s => !(st.selectedStrokeIds.contains s.id)),
      undoStack := st.undoStack ++ [st.strokes],
      redoStack := [],
      selectedStrokeId := none,
      selectedStrokeIds := [] }

/-- The per-stroke copy made by `paste`/`duplicateSelected`: fresh id and
timestamp (`fr`), target page, every point translated by `offset`. -/
def pasteStroke (pid : Int) (offset : Point) (fr : String × Int)
    (s : Stroke) : Stroke :=
  { s with
    id := mkStrokeId fr.1,
    timestamp := fr.2,
    pageId := pid,
    points := s.points.map (fun p => Point.mk (p.x + offset.x) (p.y + offset.y)) }

/-- `clipboard.map((s) => ({...}))` with a fresh id/timestamp generated per
element; `fresh i` is the generator output for the element at index `n + i`. -/
def pasteList (pid : Int) (offset : Point) (fresh : Nat → String × Int) :
    Nat → List Stroke → List Stroke
  | _, [] => []
  | n, s :: rest =>
    pasteStroke pid offset (fresh n) s :: pasteList pid offset fresh (n + 1) rest

/-- `newStrokes[0]?.id || null` — JS `||` yields `null` when the id is absent
or falsy (the empty string). -/
def jsIdOrNull (l : List Stroke) : Option String :=
  match l.head? with
  | none => none
  | some s => if s.id = "" then none else some s.id

/-- The default paste offset `{ x: 20, y: 20 }`. -/
def defaultPasteOffset : Point := ⟨20, 20⟩

/-- `paste(pageId, offset = {x:20, y:20})`: early-returns on an empty
clipboard, otherwise appends translated copies, pushes a history entry,
clears `redoStack`, and selects exactly the pasted strokes. -/
def paste (pid : Int) (offset : Point) (fresh : Nat → String × Int)
    (st : CanvasState) : CanvasState :=
  if st.clipboard.isEmpty then st
  else
    let newStrokes := pasteList pid offset fresh 0 st.clipboard
    { st with
      strokes := st.strokes ++ newStrokes,
      undoStack := st.undoStack ++ [st.strokes],
      redoStack := [],
      selectedStrokeIds := newStrokes.map (fun s => s.id),
      selectedStrokeId := jsIdOrNull newStrokes }

/-- `duplicateSelected(pageId)`: like `paste` but sourced from the current
selection and with the fixed offset `(20, 20)`. -/
def duplicateSelected (pid : Int) (fresh : Nat → String × Int)
    (st : CanvasState) : CanvasState :=
  if st.selectedStrokeIds.isEmpty then st
  else
    let sel := st.strokes.filter (fun s => st.selectedStrokeIds.contains s.id)
    let newStrokes := pasteList pid defaultPasteOffset fresh 0 sel
    { st with
      strokes := st.strokes ++ newStrokes,
      undoStack := st.undoStack ++ [st.strokes],
      redoStack := [],
      selectedStrokeIds := newStrokes.map (fun s => s.id),
      selectedStrokeId := jsIdOrNull newStrokes }

/-- The store's mutating operations, as an operation syntax (generator inputs
for fresh ids/timestamps are carried in the constructors). -/
inductive MutOp where
  | add (sd : StrokeData) (suffix : String) (now : Int)
  | update (id : String) (u : StrokeUpdate)
  | del (id : String)
  | delSel
  | clearPg (pid : Int)
  | cut
  | pasteOp (pid : Int) (offset : Point) (fresh : Nat → String × Int)
  | dup (pid : Int) (fresh : Nat → String × Int)

/-- Interpretation of a mutating operation on the store state. -/
def MutOp.apply : MutOp → CanvasState → CanvasState
  | .add sd suffix now, st => addStroke sd suffix now st
  | .update id u, st => updateStroke id u st
  | .del id, st => deleteStroke id st
  | .delSel, st => deleteSelectedStrokes st
  | .clearPg pid, st => clearPage pid st
  | .cut, st => cutSelected st
  | .pasteOp pid offset fresh, st => paste pid offset fresh st
  | .dup pid fresh, st => duplicateSelected pid fresh st

/-- An operation is effective when it does not take its early-return path
(`deleteSelectedStrokes`/`cutSelected`/`duplicateSelected` need a non-empty
selection, `paste` a non-empty clipboard). -/
def MutOp.effective : MutOp → CanvasState → Bool
  | .add _ _ _, _ => true
  | .update _ _, _ => true
  | .del _, _ => true
  | .delSel, st => !st.selectedStrokeIds.isEmpty
  | .clearPg _, _ => true
  | .cut, st => !st.selectedStrokeIds.isEmpty
  | .pasteOp _ _ _, st => !st.clipboard.isEmpty
  | .dup _ _, st => !st.selectedStrokeIds.isEmpty

/-- Left-to-right application of a sequence of operations. -/
def applySeq (st : CanvasState) : List MutOp → CanvasState
  | [] => st
  | op :: ops => applySeq (op.apply st) ops

/-- Every operation of the sequence is effective at its point of use. -/
def effectiveSeq (st : CanvasState) : List MutOp → Bool
  | [] => true
  | op :: ops => op.effective st && effectiveSeq (op.apply st) ops

/-- `undo()` with the returned flag dropped. -/
def undoStep (st : CanvasState) : CanvasState := (undo st).2

/-- `redo()` with the returned flag dropped. -/
def redoStep (st : CanvasState) : CanvasState := (redo st).2

/-! ### Geometry helpers of the Viewer (fallback path, no wasm) -/

/-- JS `s.startsWith(pre)`, on code points. -/
def jsStartsWith (s pre : String) : Bool := pre.data.isPrefixOf s.data

/-- JS `s.slice(n)` / dropping a known prefix, on code points. -/
def jsDrop (s : String) (n : Nat) : String := ⟨s.data.drop n⟩

/-- JS `s.length` (UTF-16 units in JS; code points here — they agree on the
basic multilingual plane). -/
def jsLength (s : String) : Nat := s.data.length

/-- JS regex `.test` for a character class: some character satisfies `p`. -/
def jsAnyChar (s : String) (p : Char → Bool) : Bool := s.data.any p

/-- An axis-aligned bounding box `{minX, minY, maxX, maxY}`. -/
structure Bounds where
  minX : ℚ
  minY : ℚ
  maxX : ℚ
  maxY : ℚ
deriving Repr, DecidableEq

/-- `getStrokeBounds(stroke)`: `null` for an empty point list; the two-anchor
envelope for `shape-*` strokes with at least two points; a font-size-keyed
heuristic box for `text:*` strokes; `null` otherwise.  `tool.replace("text:",
"")` drops the prefix (the tool starts with it), and the non-ASCII test of the
single-glyph regex `[^\x00-\x7F]` becomes a code-point test. -/
def getStrokeBounds (s : Stroke) : Option Bounds :=
  match s.points with
  | [] => none
  | p0 :: rest =>
    if jsStartsWith s.tool "shape-" && decide (s.points.length ≥ 2) then
      match rest with
      | [] => none
      | p1 :: _ =>
        some ⟨min p0.x p1.x, min p0.y p1.y, max p0.x p1.x, max p0.y p1.y⟩
    else if jsStartsWith s.tool "text:" then
      let text := jsDrop s.tool 5
      let fontSize : ℚ := max 14 (s.thickness * 4)
      let isMathSymbol :=
        decide (jsLength text = 1) && jsAnyChar text (fun c => decide (127 < c.toNat))
      let charWidth : ℚ :=
        if isMathSymbol then fontSize * (7 / 10) else fontSize * (11 / 20)
      let textWidth : ℚ := max (fontSize * (3 / 5)) ((jsLength text : ℚ) * charWidth)
      some ⟨p0.x - 1, p0.y - fontSize * (17 / 20),
            p0.x + textWidth - 1, p0.y + fontSize * (3 / 20)⟩
    else none

/-- `dist ≤ bound` for `dist = sqrt((qx-px)^2 + (qy-py)^2)`, stated without
the square root: over the reals `sqrt d ≤ b ↔ 0 ≤ b ∧ d ≤ b^2`. -/
def withinDistance (q p : Point) (bound : ℚ) : Bool :=
  decide (0 ≤ bound) &&
  decide ((q.x - p.x) ^ 2 + (q.y - p.y) ^ 2 ≤ bound ^ 2)

/-- The loop body predicate of `findStrokeAtPoint`: pen/highlighter strokes
match when any sample point is within `radius + thickness/2` of the query;
other strokes when the query is inside the bounding box padded by `radius`. -/
def strokeHitAt (radius : ℚ) (q : Point) (s : Stroke) : Bool :=
  if s.tool == "pen" || s.tool == "highlighter" then
    s.points.any (fun p => withinDistance q p (radius + s.thickness / 2))
  else
    match getStrokeBounds s with
    | none => false
    | some b =>
      decide (q.x ≥ b.minX - radius) && decide (q.x ≤ b.maxX + radius) &&
      decide (q.y ≥ b.minY - radius) && decide (q.y ≤ b.maxY + radius)

/-- `eraserMode ? 15 : 10`. -/
def eraserRadius (eraserMode : Bool) : ℚ := if eraserMode then 15 else 10

/-- The `for (let i = pageStrokes.length - 1; i >= 0; i--)` scan: matches from
the tail of the list (topmost stroke) take precedence. -/
def scanTopmost (radius : ℚ) (q : Point) : List Stroke → Option String
  | [] => none
  | s :: rest =>
    match scanTopmost radius q rest with
    | some found => some found
    | none => if strokeHitAt radius q s then some s.id else none

/-- `findStrokeAtPoint(point, eraserMode)` — the non-wasm fallback path. -/
def findStrokeAtPoint (q : Point) (eraserMode : Bool) (pid : Int)
    (strokes : List Stroke) : Option String :=
  scanTopmost (eraserRadius eraserMode) q (getPageStrokes pid strokes)

/-- Point-in-rectangle test used by `findStrokesInRect`. -/
def rectContains (rminX rminY rmaxX rmaxY : ℚ) (p : Point) : Bool :=
  decide (p.x ≥ rminX) && decide (p.x ≤ rmaxX) &&
  decide (p.y ≥ rminY) && decide (p.y ≤ rmaxY)

/-- The per-stroke inclusion test of `findStrokesInRect`: pen/highlighter
strokes by sample point membership; other strokes by bounding-box center
membership or axis-aligned bounding-box overlap. -/
def strokeInRect (rminX rminY rmaxX rmaxY : ℚ) (s : Stroke) : Bool :=
  if s.tool == "pen" || s.tool == "highlighter" then
    s.points.any (rectContains rminX rminY rmaxX rmaxY)
  else
    match getStrokeBounds s with
    | none => false
    | some b =>
      rectContains rminX rminY rmaxX rmaxY
        ⟨(b.minX + b.maxX) / 2, (b.minY + b.maxY) / 2⟩ ||
      (decide (b.minX ≤ rmaxX) && decide (b.maxX ≥ rminX) &&
       decide (b.minY ≤ rmaxY) && decide (b.maxY ≥ rminY))

/-- The result-accumulating loop of `findStrokesInRect`. -/
def collectInRect (rminX rminY rmaxX rmaxY : ℚ) : List Stroke → List String
  | [] => []
  | s :: rest =>
    if strokeInRect rminX rminY rmaxX rmaxY s then
      s.id :: collectInRect rminX rminY rmaxX rmaxY rest
    else
      collectInRect rminX rminY rmaxX rmaxY rest

/-- `findStrokesInRect(start, end)` on the current page's strokes. -/
def findStrokesInRect (rstart rend : Point) (pid : Int)
    (strokes : List Stroke) : List String :=
  collectInRect (min rstart.x rend.x) (min rstart.y rend.y)
    (max rstart.x rend.x) (max rstart.y rend.y) (getPageStrokes pid strokes)

/-- C7's inclusion rule written from the spec's words: the stroke is included
iff any of its freehand sample points falls inside the rectangle, or its
bounding-box center falls inside, or its bounding box overlaps the rectangle
(axis-aligned overlap test). -/
def specRectIncluded (rminX rminY rmaxX rmaxY : ℚ) (s : Stroke) : Bool :=
  ((s.tool == "pen" || s.tool == "highlighter") &&
    s.points.any (rectContains rminX rminY rmaxX rmaxY)) ||
  (match getStrokeBounds s with
   | none => false
   | some b =>
     rectContains rminX rminY rmaxX rmaxY
       ⟨(b.minX + b.maxX) / 2, (b.minY + b.maxY) / 2⟩) ||
  (match getStrokeBounds s with
   | none => false
   | some b =>
     decide (b.minX ≤ rmaxX) && decide (b.maxX ≥ rminX) &&
     decide (b.minY ≤ rmaxY) && decide (b.maxY ≥ rminY))

/-! ### Page prefetch queue (Viewer effect) -/

/-- The queue-rebuild step of the prefetch effect: `pdfQueueRef.current = []`
discards the pending queue (`prev` is intentionally unused), then the current
page, its predecessor and its successor are pushed, each only when uncached
and in range. -/
def buildPrefetchQueue (prev : List Int) (currentPage total : Int)
    (rendered : Int → Bool) : List Int :=
  let _ := prev
  let q : List Int := []
  let q := if rendered currentPage then q else q ++ [currentPage]
  let q :=
    if decide (currentPage > 1) && !rendered (currentPage - 1) then
      q ++ [currentPage - 1]
    else q
  let q :=
    if decide (currentPage < total) && !rendered (currentPage + 1) then
      q ++ [currentPage + 1]
    else q
  q

/-- C9's request list written from the spec's words: `[N, N-1, N+1]` in that
order, restricted to uncached, in-range pages (`N-1` only when `N > 1`, `N+1`
only when `N < total`). -/
def specPrefetchList (currentPage total : Int) (rendered : Int → Bool) :
    List Int :=
  [currentPage, currentPage - 1, currentPage + 1].filter (fun p =>
    !rendered p &&
    (p == currentPage ||
     (p == currentPage - 1 && decide (1 < currentPage)) ||
     (p == currentPage + 1 && decide (currentPage < total))))

/-- `processQueue` takes one entry at a time from the front of the queue
(`shift()`), so pages are loaded in queue order. -/
def processOrder : List Int → List Int
  | [] => []
  | p :: rest => p :: processOrder rest

/-! ### Concrete states used by counterexamples and witnesses -/

/-- A sample pen stroke. -/
def sampleStroke : Stroke :=
  { id := "s1", points := [⟨1, 2⟩], color := "#000000", thickness := 2,
    opacity := 100, tool := "pen", pageId := 1, timestamp := 0 }

/-- A state whose `redoStack` is non-empty while selection and clipboard are
empty (reached e.g. by `addStroke` then `undo` then `clearSelection`). -/
def redoBlockedState : CanvasState :=
  { strokes := [], undoStack := [], redoStack := [[sampleStroke]],
    currentPageId := 1, selectedStrokeId := none, selectedStrokeIds := [],
    clipboard := [] }

/-- A state holding `sampleStroke` with nothing selected. -/
def oneStrokeState : CanvasState :=
  { strokes := [sampleStroke], undoStack := [], redoStack := [],
    currentPageId := 1, selectedStrokeId := none, selectedStrokeIds := [],
    clipboard := [] }

/-- A state with the single id `"a"` selected (primary `"a"`). -/
def selState : CanvasState :=
  { strokes := [], undoStack := [], redoStack := [], currentPageId := 1,
    selectedStrokeId := some "a", selectedStrokeIds := ["a"],
    clipboard := [] }

/-- Sample `addStroke` payload. -/
def demoStrokeData : StrokeData :=
  { points := [⟨0, 0⟩], color := "#ffffff", thickness := 2, opacity := 100,
    tool := "pen", pageId := 1 }

/-- A short sequence of always-effective mutating operations. -/
def demoOps : List MutOp :=
  [MutOp.add demoStrokeData "w1" 10, MutOp.del "nope"]

/-- The state reached from `oneStrokeState` by selecting `"s1"` and then
deleting it (the "original deletion", which also clears it from the
selection). -/
def afterFirstDeletion : CanvasState :=
  deleteStroke "s1" (selectStroke (some "s1") oneStrokeState)

/-- The claimed primary-selection invariant (C8): the primary selected id is
the first element of the ordered selection (or `null` when it is empty). -/
def primarySelectionInv (st : CanvasState) : Prop :=
  st.selectedStrokeId = st.selectedStrokeIds.head?

/-- A clipboard stroke: 1-point freehand stroke at `(10, 10)`. -/
def clipStroke : Stroke :=
  { id := "c1", points := [⟨10, 10⟩], color := "#000000", thickness := 2,
    opacity := 100, tool := "pen", pageId := 1, timestamp := 0 }

/-- A state whose clipboard holds `clipStroke`. -/
def clipState : CanvasState :=
  { initialCanvasState with clipboard := [clipStroke] }

/-- A deterministic stand-in for the fresh id/timestamp generator. -/
def pasteGen : Nat → String × Int := fun i => (toString i, 99)

/-- A freehand stroke with its only sample point at `(25, 25)`. -/
def rectDemoStroke : Stroke :=
  { id := "r1", points := [⟨25, 25⟩], color := "#000000", thickness := 2,
    opacity := 100, tool := "pen", pageId := 1, timestamp := 0 }

/-- A state in which `"s1"` is selected and one `undo` will restore an empty
stroke list (leaving the selection stale). -/
def staleSelState : CanvasState :=
  { strokes := [sampleStroke], undoStack := [[]], redoStack := [],
    currentPageId := 1, selectedStrokeId := some "s1",
    selectedStrokeIds := ["s1"], clipboard := [] }

/-! ### History helper lemmas -/

theorem undoStack_apply_effective (op : MutOp) (st : CanvasState)
    (h : op.effective st = true) :
    (op.apply st).undoStack = st.undoStack ++ [st.strokes] ∧
    (op.apply st).redoStack = [] := by
  cases op <;>
    simp_all [MutOp.apply, MutOp.effective, addStroke, updateStroke,
      deleteStroke, deleteSelectedStrokes, clearPage, cutSelected, paste,
      duplicateSelected]

theorem apply_not_effective (op : MutOp) (st : CanvasState)
    (h : op.effective st = false) : op.apply st = st := by
  cases op <;>
    simp_all [MutOp.apply, MutOp.effective, deleteSelectedStrokes, cutSelected,
      paste, duplicateSelected]

theorem applySeq_undoStack_length (ops : List MutOp) : ∀ st : CanvasState,
    effectiveSeq st ops = true →
    (applySeq st ops).undoStack.length = st.undoStack.length + ops.length := by
  induction ops with
  | nil => intro st _; simp [applySeq]
  | cons op ops ih =>
    intro st h
    simp only [effectiveSeq, Bool.and_eq_true] at h
    have hp := undoStack_apply_effective op st h.1
    simp only [applySeq, List.length_cons]
    rw [ih _ h.2, hp.1]
    simp only [List.length_append, List.length_cons, List.length_nil]
    omega

theorem undoStep_of_ne (st : CanvasState) (h : st.undoStack ≠ []) :
    undoStep st =
      { st with
        strokes := st.undoStack.getLast h,
        undoStack := st.undoStack.dropLast,
        redoStack := st.redoStack ++ [st.strokes] } := by
  simp [undoStep, undo, h]

theorem redoStep_of_ne (st : CanvasState) (h : st.redoStack ≠ []) :
    redoStep st =
      { st with
        strokes := st.redoStack.getLast h,
        redoStack := st.redoStack.dropLast,
        undoStack := st.undoStack ++ [st.strokes] } := by
  simp [redoStep, redo, h]

theorem redoStep_undoStep (st : CanvasState) (h : st.undoStack ≠ []) :
    redoStep (undoStep st) = st := by
  rw [undoStep_of_ne st h]
  rw [redoStep_of_ne _ (by simp)]
  simp only [List.getLast_concat, List.dropLast_concat,
    List.dropLast_append_getLast h]

theorem redoN_undoN (n : Nat) : ∀ st : CanvasState, n ≤ st.undoStack.length →
    redoStep^[n] (undoStep^[n] st) = st := by
  induction n with
  | zero => intro st _; simp
  | succ n ih =>
    intro st h
    have hne : st.undoStack ≠ [] := by
      intro hnil
      rw [hnil] at h
      simp at h
    rw [Function.iterate_succ_apply undoStep, Function.iterate_succ_apply' redoStep]
    have hlen : n ≤ (undoStep st).undoStack.length := by
      rw [undoStep_of_ne st hne]
      simp only [List.length_dropLast]
      omega
    rw [ih _ hlen, redoStep_undoStep st hne]

/-! ### Claim theorems -/

/-- C1: starting from any store state, after any sequence of N (effective)
mutating operations, undoing N times and then redoing N times reproduces the
exact stroke list the mutations produced; `undo()`/`redo()` return `true`
exactly when their stack was non-empty; `canUndo()`/`canRedo()` return
`false` exactly when `undoStack`/`redoStack` are empty. -/
theorem undo_redo_inverse_law (st : CanvasState) (ops : List MutOp)
    (h : effectiveSeq st ops = true) :
    (redoStep^[ops.length] (undoStep^[ops.length] (applySeq st ops))).strokes
      = (applySeq st ops).strokes
    ∧ (∀ s : CanvasState, (undo s).1 = true ↔ s.undoStack ≠ [])
    ∧ (∀ s : CanvasState, (redo s).1 = true ↔ s.redoStack ≠ [])
    ∧ (∀ s : CanvasState, canUndo s = false ↔ s.undoStack = [])
    ∧ (∀ s : CanvasState, canRedo s = false ↔ s.redoStack = []) := by
  refine ⟨?_, ?_, ?_, ?_, ?_⟩
  · have hlen := applySeq_undoStack_length ops st h
    have hle : ops.length ≤ (applySeq st ops).undoStack.length := by omega
    rw [redoN_undoN _ _ hle]
  · intro s
    by_cases hs : s.undoStack = [] <;> simp [undo, hs]
  · intro s
    by_cases hs : s.redoStack = [] <;> simp [redo, hs]
  · intro s
    simp [canUndo, List.length_eq_zero]
  · intro s
    simp [canRedo, List.length_eq_zero]

theorem undo_redo_inverse_law_witness :
    effectiveSeq initialCanvasState demoOps = true
    ∧ (redoStep^[demoOps.length]
        (undoStep^[demoOps.length] (applySeq initialCanvasState demoOps))).strokes
      = (applySeq initialCanvasState demoOps).strokes :=
  ⟨by decide, (undo_redo_inverse_law initialCanvasState demoOps (by decide)).1⟩

/-- C2 counterexample: in `redoBlockedState` the `redoStack` is non-empty,
the selection is empty, and `deleteSelectedStrokes` (a listed mutating
operation) neither pushes an undo entry nor clears the `redoStack`. -/
theorem new_edit_clears_redo_counterexample :
    redoBlockedState.redoStack ≠ []
    ∧ (MutOp.delSel.apply redoBlockedState).redoStack ≠ []
    ∧ (MutOp.delSel.apply redoBlockedState).undoStack
        ≠ redoBlockedState.undoStack ++ [redoBlockedState.strokes] := by
  refine ⟨by decide, by decide, by decide⟩

/-- C2 amended: every mutating operation that does not take its early-return
path (`deleteSelectedStrokes`/`cutSelected`/`duplicateSelected` with a
non-empty selection, `paste` with a non-empty clipboard; the others always)
pushes the pre-mutation strokes snapshot onto `undoStack` and sets
`redoStack` to empty; an early-returning invocation leaves the whole state
unchanged. -/
theorem new_edit_clears_redo_amended (op : MutOp) (st : CanvasState) :
    (op.effective st = true →
      (op.apply st).undoStack = st.undoStack ++ [st.strokes]
      ∧ (op.apply st).redoStack = [])
    ∧ (op.effective st = false → op.apply st = st) :=
  ⟨undoStack_apply_effective op st, apply_not_effective op st⟩

theorem new_edit_clears_redo_amended_witness :
    MutOp.delSel.effective selState = true
    ∧ (MutOp.delSel.apply selState).undoStack
        = selState.undoStack ++ [selState.strokes]
    ∧ (MutOp.delSel.apply selState).redoStack = [] :=
  ⟨by decide,
    (new_edit_clears_redo_amended MutOp.delSel selState).1 (by decide)⟩

/-- C3: `updateStroke` on an id absent from `strokes` leaves the stroke list
unchanged but still pushes one history entry and clears `redoStack` (and, in
particular, does not fail). -/
theorem updateStroke_missing_id (st : CanvasState) (id : String)
    (u : StrokeUpdate) (h : ∀ s ∈ st.strokes, s.id ≠ id) :
    updateStroke id u st =
      { st with undoStack := st.undoStack ++ [st.strokes], redoStack := [] } := by
  simp only [updateStroke]
  have hmap : st.strokes.map (fun s => if s.id = id then applyUpdate u s else s)
      = st.strokes :=
    (List.map_congr_left (fun s hs => if_neg (h s hs))).trans (List.map_id _)
  rw [hmap]

theorem updateStroke_missing_id_witness :
    (∀ s ∈ oneStrokeState.strokes, s.id ≠ "zzz")
    ∧ updateStroke "zzz" {} oneStrokeState =
        { oneStrokeState with
          undoStack := oneStrokeState.undoStack ++ [oneStrokeState.strokes],
          redoStack := [] } :=
  ⟨by decide, updateStroke_missing_id oneStrokeState "zzz" {} (by decide)⟩

/-- C4 counterexample: after the original deletion of `"s1"` (which pushed
one undo entry), calling `deleteStroke("s1")` again — the id is now absent —
pushes a second undo entry, contradicting "adds no undo entry beyond the one
pushed by the original deletion". -/
theorem delete_absent_counterexample :
    afterFirstDeletion.strokes = []
    ∧ afterFirstDeletion.undoStack.length = 1
    ∧ (deleteStroke "s1" afterFirstDeletion).undoStack.length = 2 := by
  refine ⟨by decide, by decide, by decide⟩

/-- C4 amended: deleting an absent id raises no exception; `deleteStroke` on
an id absent from both the strokes and the selection leaves strokes and
selection unchanged but still pushes one undo snapshot (mirroring
`updateStroke`), while `deleteSelectedStrokes` with an empty selection is a
complete no-op that adds no undo entry. -/
theorem delete_absent_behavior (st : CanvasState) (id : String)
    (h1 : ∀ s ∈ st.strokes, s.id ≠ id) (h2 : id ∉ st.selectedStrokeIds)
    (h3 : st.selectedStrokeId ≠ some id) :
    deleteStroke id st =
      { st with undoStack := st.undoStack ++ [st.strokes], redoStack := [] }
    ∧ (st.selectedStrokeIds = [] → deleteSelectedStrokes st = st) := by
  constructor
  · simp only [deleteStroke]
    have hstr : st.strokes.filter (fun s => s.id != id) = st.strokes :=
      List.filter_eq_self.mpr (fun s hs => by simp [h1 s hs])
    have hsel : st.selectedStrokeIds.filter (fun sid => sid != id)
        = st.selectedStrokeIds :=
      List.filter_eq_self.mpr (fun sid hs => by
        simp only [bne_iff_ne, ne_eq]
        rintro rfl
        exact h2 hs)
    rw [hstr, hsel, if_neg h3]
  · intro hsel
    simp [deleteSelectedStrokes, hsel]

theorem pasteList_length (pid : Int) (offset : Point)
    (fresh : Nat → String × Int) :
    ∀ (n : Nat) (l : List Stroke),
      (pasteList pid offset fresh n l).length = l.length := by
  intro n l
  induction l generalizing n with
  | nil => rfl
  | cons s rest ih => simp [pasteList, ih]

theorem pasteList_getElem? (pid : Int) (offset : Point)
    (fresh : Nat → String × Int) :
    ∀ (n : Nat) (l : List Stroke) (i : Nat),
      (pasteList pid offset fresh n l)[i]?
        = (l[i]?).map (pasteStroke pid offset (fresh (n + i))) := by
  intro n l
  induction l generalizing n with
  | nil => intro i; simp [pasteList]
  | cons s rest ih =>
    intro i
    cases i with
    | zero => simp [pasteList]
    | succ i =>
      simp only [pasteList, List.getElem?_cons_succ, ih (n + 1) i]
      have : n + 1 + i = n + (i + 1) := by omega
      rw [this]

theorem pasteList_id_ne_empty (pid : Int) (offset : Point)
    (fresh : Nat → String × Int) :
    ∀ (n : Nat) (l : List Stroke) (s : Stroke),
      s ∈ pasteList pid offset fresh n l → s.id ≠ "" := by
  intro n l
  induction l generalizing n with
  | nil => intro s hs; simp [pasteList] at hs
  | cons hd rest ih =>
    intro s hs
    simp only [pasteList, List.mem_cons] at hs
    rcases hs with h | h
    · subst h
      show mkStrokeId (fresh n).1 ≠ ""
      intro h
      have hd2 := congrArg String.data h
      rw [mkStrokeId, String.data_append] at hd2
      exact absurd (List.append_eq_nil.mp hd2).1 (by decide)
    · exact ih (n + 1) s h

theorem jsIdOrNull_eq_head_of_ids (l : List Stroke)
    (h : ∀ s ∈ l, s.id ≠ "") :
    jsIdOrNull l = (l.map Stroke.id).head? := by
  cases l with
  | nil => rfl
  | cons s rest =>
    simp only [jsIdOrNull, List.head?_cons, List.map_cons]
    rw [if_neg (h s (List.mem_cons_self s rest))]

/-- C5: `paste(pageId, offset)` on a non-empty clipboard appends, after the
existing strokes, one copy of each clipboard stroke with every point
translated by the offset, a fresh id and timestamp, and the target pageId;
and it makes exactly the pasted strokes the new selection with the first one
primary. -/
theorem paste_appends_translated_copies (st : CanvasState) (pid : Int)
    (offset : Point) (fresh : Nat → String × Int)
    (h : st.clipboard.isEmpty = false) :
    (paste pid offset fresh st).strokes.length
      = st.strokes.length + st.clipboard.length
    ∧ (paste pid offset fresh st).strokes.take st.strokes.length = st.strokes
    ∧ (∀ i : Nat,
        (paste pid offset fresh st).strokes[st.strokes.length + i]?
          = (st.clipboard[i]?).map (fun s =>
              { s with
                id := mkStrokeId (fresh i).1,
                timestamp := (fresh i).2,
                pageId := pid,
                points := s.points.map
                  (fun p => Point.mk (p.x + offset.x) (p.y + offset.y)) }))
    ∧ (paste pid offset fresh st).selectedStrokeIds
      = ((paste pid offset fresh st).strokes.drop st.strokes.length).map
          Stroke.id
    ∧ (paste pid offset fresh st).selectedStrokeIds ≠ []
    ∧ (paste pid offset fresh st).selectedStrokeId
      = (paste pid offset fresh st).selectedStrokeIds.head? := by
  have hps : paste pid offset fresh st =
      { st with
        strokes := st.strokes ++ pasteList pid offset fresh 0 st.clipboard,
        undoStack := st.undoStack ++ [st.strokes],
        redoStack := [],
        selectedStrokeIds :=
          (pasteList pid offset fresh 0 st.clipboard).map (fun s => s.id),
        selectedStrokeId :=
          jsIdOrNull (pasteList pid offset fresh 0 st.clipboard) } := by
    simp [paste, h]
  rw [hps]
  refine ⟨?_, ?_, ?_, ?_, ?_, ?_⟩
  · simp [pasteList_length]
  · exact List.take_left st.strokes _
  · intro i
    rw [List.getElem?_append_right (by omega)]
    have hi : st.strokes.length + i - st.strokes.length = i := by omega
    rw [hi, pasteList_getElem?]
    simp only [Nat.zero_add]
    rfl
  · rw [List.drop_left]
  · intro hnil
    have := congrArg List.length hnil
    simp only [List.length_map, pasteList_length, List.length_nil] at this
    rw [List.isEmpty_eq_false_iff_exists_mem] at h
    obtain ⟨x, hx⟩ := h
    have : st.clipboard ≠ [] := by
      intro hc; rw [hc] at hx; exact absurd hx (List.not_mem_nil x)
    exact this (List.length_eq_zero.mp ‹(st.clipboard).length = 0›)
  · exact jsIdOrNull_eq_head_of_ids _
      (pasteList_id_ne_empty pid offset fresh 0 st.clipboard)

theorem paste_appends_translated_copies_witness :
    clipState.clipboard.isEmpty = false
    ∧ (paste 2 defaultPasteOffset pasteGen clipState).strokes[clipState.strokes.length + 0]?
      = (clipState.clipboard[0]?).map (fun s =>
          { s with
            id := mkStrokeId (pasteGen 0).1,
            timestamp := (pasteGen 0).2,
            pageId := 2,
            points := s.points.map
              (fun p => Point.mk (p.x + defaultPasteOffset.x)
                (p.y + defaultPasteOffset.y)) })
    ∧ (paste 2 defaultPasteOffset pasteGen clipState).selectedStrokeId
      = (paste 2 defaultPasteOffset pasteGen clipState).selectedStrokeIds.head? :=
  ⟨by decide,
    (paste_appends_translated_copies clipState 2 defaultPasteOffset pasteGen
      (by decide)).2.2.1 0,
    (paste_appends_translated_copies clipState 2 defaultPasteOffset pasteGen
      (by decide)).2.2.2.2.2⟩

theorem delete_absent_behavior_witness :
    ((∀ s ∈ afterFirstDeletion.strokes, s.id ≠ "s1")
      ∧ "s1" ∉ afterFirstDeletion.selectedStrokeIds
      ∧ afterFirstDeletion.selectedStrokeId ≠ some "s1")
    ∧ deleteStroke "s1" afterFirstDeletion =
        { afterFirstDeletion with
          undoStack := afterFirstDeletion.undoStack ++ [afterFirstDeletion.strokes],
          redoStack := [] } :=
  ⟨⟨by decide, by decide, by decide⟩,
    (delete_absent_behavior afterFirstDeletion "s1" (by decide) (by decide)
      (by decide)).1⟩

theorem scanTopmost_eq_find_reverse (radius : ℚ) (q : Point) :
    ∀ l : List Stroke,
      scanTopmost radius q l
        = (l.reverse.find? (strokeHitAt radius q)).map Stroke.id := by
  intro l
  induction l with
  | nil => rfl
  | cons s rest ih =>
    simp only [scanTopmost, ih, List.reverse_cons, List.find?_append]
    cases hfind : rest.reverse.find? (strokeHitAt radius q) with
    | some x => simp [Option.or]
    | none =>
      cases hhit : strokeHitAt radius q s <;>
        simp [Option.or, List.find?, hhit]

theorem getPageStrokes_pair (A B : Stroke) (pid : Int)
    (hA : A.pageId = pid) (hB : B.pageId = pid) :
    getPageStrokes pid [A, B] = [A, B] := by
  simp [getPageStrokes, hA, hB]

/-- C6: the fallback `findStrokeAtPoint` scans the page's strokes in reverse
insertion order and returns the id of the first stroke matching the
pen/highlighter point-distance rule or the padded-bounding-box rule; hence
with two overlapping strokes A (added before B) both covering the query
point, the result is B's id, never A's. -/
theorem hit_test_topmost_wins :
    (∀ (q : Point) (em : Bool) (pid : Int) (strokes : List Stroke),
      findStrokeAtPoint q em pid strokes
        = ((getPageStrokes pid strokes).reverse.find?
            (strokeHitAt (eraserRadius em) q)).map Stroke.id)
    ∧ (∀ (A B : Stroke) (q : Point) (em : Bool) (pid : Int),
        A.pageId = pid → B.pageId = pid →
        strokeHitAt (eraserRadius em) q A = true →
        strokeHitAt (eraserRadius em) q B = true →
        A.id ≠ B.id →
        findStrokeAtPoint q em pid [A, B] = some B.id
        ∧ findStrokeAtPoint q em pid [A, B] ≠ some A.id) := by
  refine ⟨fun q em pid strokes => scanTopmost_eq_find_reverse _ _ _,
    fun A B q em pid hA hB hhA hhB hne => ?_⟩
  have heq : findStrokeAtPoint q em pid [A, B] = some B.id := by
    rw [findStrokeAtPoint, getPageStrokes_pair A B pid hA hB,
      scanTopmost_eq_find_reverse]
    simp [List.find?, hhB]
  refine ⟨heq, ?_⟩
  rw [heq]
  intro hcontra
  exact hne (Option.some.inj hcontra).symm

theorem hit_test_topmost_wins_witness :
    rectDemoStroke.pageId = 1
    ∧ sampleStroke.pageId = 1
    ∧ strokeHitAt (eraserRadius false) ⟨25, 25⟩ rectDemoStroke = true
    ∧ strokeHitAt (eraserRadius false) ⟨25, 25⟩
        { sampleStroke with points := [⟨26, 25⟩] } = true
    ∧ rectDemoStroke.id ≠ ({ sampleStroke with points := [⟨26, 25⟩] }).id
    ∧ findStrokeAtPoint ⟨25, 25⟩ false 1
        [rectDemoStroke, { sampleStroke with points := [⟨26, 25⟩] }]
      = some ({ sampleStroke with points := [⟨26, 25⟩] }).id
    ∧ findStrokeAtPoint ⟨25, 25⟩ false 1
        [rectDemoStroke, { sampleStroke with points := [⟨26, 25⟩] }]
      ≠ some rectDemoStroke.id := by
  have h1 : strokeHitAt (eraserRadius false) ⟨25, 25⟩ rectDemoStroke = true := by
    norm_num [strokeHitAt, withinDistance, rectDemoStroke, eraserRadius]
  have h2 : strokeHitAt (eraserRadius false) ⟨25, 25⟩
      { sampleStroke with points := [⟨26, 25⟩] } = true := by
    norm_num [strokeHitAt, withinDistance, sampleStroke, eraserRadius]
  have hmain := hit_test_topmost_wins.2 rectDemoStroke
    { sampleStroke with points := [⟨26, 25⟩] } ⟨25, 25⟩ false 1
    (by decide) (by decide) h1 h2 (by decide)
  exact ⟨by decide, by decide, h1, h2, by decide, hmain.1, hmain.2⟩

theorem collectInRect_eq_filter (a b c d : ℚ) :
    ∀ l : List Stroke,
      collectInRect a b c d l
        = (l.filter (strokeInRect a b c d)).map Stroke.id := by
  intro l
  induction l with
  | nil => rfl
  | cons s rest ih =>
    cases hs : strokeInRect a b c d s <;>
      simp [collectInRect, List.filter_cons, hs, ih]

theorem getStrokeBounds_freehand (s : Stroke)
    (h : (s.tool == "pen" || s.tool == "highlighter") = true) :
    getStrokeBounds s = none := by
  have : s.tool = "pen" ∨ s.tool = "highlighter" := by
    rcases Bool.or_eq_true_iff.mp h with h1 | h1
    · exact Or.inl (by simpa using h1)
    · exact Or.inr (by simpa using h1)
  rcases this with h1 | h1 <;>
    · rw [getStrokeBounds]
      cases s.points <;> simp [h1, jsStartsWith]

theorem strokeInRect_eq_spec (a b c d : ℚ) (s : Stroke) :
    strokeInRect a b c d s = specRectIncluded a b c d s := by
  by_cases hf : (s.tool == "pen" || s.tool == "highlighter") = true
  · rw [strokeInRect, if_pos hf, specRectIncluded,
      getStrokeBounds_freehand s hf]
    simp [hf]
  · rw [strokeInRect, if_neg hf, specRectIncluded]
    have hf2 : (s.tool == "pen" || s.tool == "highlighter") = false :=
      Bool.eq_false_iff.mpr hf
    cases hb : getStrokeBounds s <;> simp [hf2]

/-- C7: `findStrokesInRect` includes (in insertion order) exactly the page's
strokes satisfying the three-way rule — some freehand sample point inside the
rectangle, or bounding-box center inside, or axis-aligned bounding-box
overlap; in particular the rect `(0,0)`–`(50,50)` over a freehand stroke with
a point at `(25,25)` selects it. -/
theorem rubber_band_selection_rule :
    (∀ (rstart rend : Point) (pid : Int) (strokes : List Stroke),
      findStrokesInRect rstart rend pid strokes
        = ((getPageStrokes pid strokes).filter
            (specRectIncluded (min rstart.x rend.x) (min rstart.y rend.y)
              (max rstart.x rend.x) (max rstart.y rend.y))).map Stroke.id)
    ∧ findStrokesInRect ⟨0, 0⟩ ⟨50, 50⟩ 1 [rectDemoStroke]
        = [rectDemoStroke.id] := by
  constructor
  · intro rstart rend pid strokes
    rw [findStrokesInRect, collectInRect_eq_filter]
    congr 1
    apply List.filter_congr
    intro s _
    exact strokeInRect_eq_spec _ _ _ _ s
  · norm_num [findStrokesInRect, getPageStrokes, collectInRect, strokeInRect,
      rectContains, rectDemoStroke]

/-- C8 counterexample: starting from a valid single-element selection,
`addToSelection("b")` appends `"b"` at the end of `selectedStrokeIds` but
makes it the primary, so `selectedStrokeId` no longer equals the first
element. -/
theorem primary_selection_counterexample :
    primarySelectionInv selState
    ∧ ¬ primarySelectionInv (addToSelection "b" selState) := by
  unfold primarySelectionInv
  exact ⟨by decide, by decide⟩

/-- C8 amended: after `selectStroke` (with `null` or a non-empty id),
`selectStrokes`, `removeFromSelection` and `clearSelection`,
`selectedStrokeId` equals the first element of `selectedStrokeIds` (or
`null` when empty); `addToSelection` of a not-yet-selected id instead
appends the id and makes it the primary (the last element), and of an
already-selected id leaves the state unchanged. -/
theorem primary_selection_amended (st : CanvasState) :
    (∀ id : Option String, id ≠ some "" →
      primarySelectionInv (selectStroke id st))
    ∧ (∀ ids : List String, primarySelectionInv (selectStrokes ids st))
    ∧ (∀ id : String, primarySelectionInv (removeFromSelection id st))
    ∧ primarySelectionInv (clearSelection st)
    ∧ (∀ id : String, st.selectedStrokeIds.contains id = false →
        (addToSelection id st).selectedStrokeId = some id
        ∧ (addToSelection id st).selectedStrokeIds
            = st.selectedStrokeIds ++ [id])
    ∧ (∀ id : String, st.selectedStrokeIds.contains id = true →
        addToSelection id st = st) := by
  refine ⟨?_, ?_, ?_, ?_, ?_, ?_⟩
  · intro id hid
    cases id with
    | none => rfl
    | some s =>
      have hs : ¬ s = "" := fun hc => hid (by rw [hc])
      simp [primarySelectionInv, selectStroke, hs]
  · intro ids
    rfl
  · intro id
    rfl
  · rfl
  · intro id hid
    have hid2 : id ∉ st.selectedStrokeIds := by simpa using hid
    constructor <;> simp [addToSelection, hid2]
  · intro id hid
    have hid2 : id ∈ st.selectedStrokeIds := by simpa using hid
    simp [addToSelection, hid2]

theorem primary_selection_amended_witness :
    (some "a" : Option String) ≠ some ""
    ∧ primarySelectionInv (selectStroke (some "a") initialCanvasState)
    ∧ selState.selectedStrokeIds.contains "b" = false
    ∧ (addToSelection "b" selState).selectedStrokeId = some "b"
    ∧ (addToSelection "b" selState).selectedStrokeIds
        = selState.selectedStrokeIds ++ ["b"] :=
  ⟨by decide,
    (primary_selection_amended initialCanvasState).1 (some "a") (by decide),
    by decide,
    ((primary_selection_amended selState).2.2.2.2.1 "b" (by decide)).1,
    ((primary_selection_amended selState).2.2.2.2.1 "b" (by decide)).2⟩

/-- C9: on navigation to page N the prefetch queue is rebuilt — discarding
any pending queue — as exactly `[N, N-1, N+1]` in that order restricted to
uncached, in-range pages, and `processQueue` consumes entries one at a time
from the front, in queue order. -/
theorem prefetch_queue_rebuild :
    (∀ (prev : List Int) (n total : Int) (rendered : Int → Bool),
      buildPrefetchQueue prev n total rendered
        = specPrefetchList n total rendered)
    ∧ (∀ q : List Int, processOrder q = q) := by
  constructor
  · intro prev n total rendered
    have e1 : (n - 1 == n) = false := by
      simp only [beq_eq_false_iff_ne, ne_eq]
      omega
    have e2 : (n + 1 == n) = false := by
      simp only [beq_eq_false_iff_ne, ne_eq]
      omega
    have e3 : (n - 1 == n + 1) = false := by
      simp only [beq_eq_false_iff_ne, ne_eq]
      omega
    have e4 : (n + 1 == n - 1) = false := by
      simp only [beq_eq_false_iff_ne, ne_eq]
      omega
    rcases hr1 : rendered n <;> rcases hr2 : rendered (n - 1) <;>
      rcases hr3 : rendered (n + 1) <;>
      by_cases h1 : (1 : Int) < n <;> by_cases h2 : n < total <;>
      simp [buildPrefetchQueue, specPrefetchList, List.filter, hr1, hr2, hr3,
        h1, h2, e1, e2, e3, e4]
  · intro q
    induction q with
    | nil => rfl
    | cons p rest ih => simp [processOrder, ih]

/-- C10: `undo()`/`redo()` leave `selectedStrokeId`, `selectedStrokeIds`,
`clipboard` and `currentPageId` untouched in every state; consequently after
an undo the selection can still hold ids of strokes that no longer exist
(witnessed by `staleSelState`). -/
theorem undo_redo_frame :
    (∀ st : CanvasState,
      (undoStep st).selectedStrokeId = st.selectedStrokeId
      ∧ (undoStep st).selectedStrokeIds = st.selectedStrokeIds
      ∧ (undoStep st).clipboard = st.clipboard
      ∧ (undoStep st).currentPageId = st.currentPageId
      ∧ (redoStep st).selectedStrokeId = st.selectedStrokeId
      ∧ (redoStep st).selectedStrokeIds = st.selectedStrokeIds
      ∧ (redoStep st).clipboard = st.clipboard
      ∧ (redoStep st).currentPageId = st.currentPageId)
    ∧ ((undoStep staleSelState).selectedStrokeIds = ["s1"]
       ∧ (undoStep staleSelState).strokes.all (fun s => s.id != "s1") = true) := by
  constructor
  · intro st
    by_cases hu : st.undoStack = [] <;> by_cases hr : st.redoStack = [] <;>
      simp [undoStep, redoStep, undo, redo, hu, hr]
  · exact ⟨by decide, by decide⟩

end AnnotateStudio
